import Mathlib

/-!
Verification of the two scripts in this repository: the volume-under-surface
calculator (`Volume surface calculator/main.py`) and the weekly temperature
summary (`Weekly_Temp_Graph/main.py`).  The numeric core is embedded over ℚ;
Python's fallible float division is embedded as an `Option`-valued division.
-/

namespace VolumeCalc

/-- The surface z = x² + y², from `surface_function` in
`Volume surface calculator/main.py`. -/
def surface_function (x y : ℚ) : ℚ := x ^ 2 + y ^ 2

/-- The analytical value of ∫₀¹∫₀¹ (x² + y²) dx dy, from
`analytical_solution`: the source returns the constant `2 / 3`. -/
def analytical_solution : ℚ := 2 / 3

/-- Riemann midpoint sum from `numerical_integration_riemann`: with
`dx = dy = 1/n`, nested loops over `range n` accumulate
`surface_function ((i+0.5)*dx, (j+0.5)*dy) * dx * dy` into `volume`,
starting from `0`. -/
def numerical_integration_riemann (n : ℕ) : ℚ :=
  let dx : ℚ := 1 / n
  let dy : ℚ := 1 / n
  (List.range n).foldl (fun (vol : ℚ) (i : ℕ) =>
    (List.range n).foldl (fun (vol : ℚ) (j : ℕ) =>
      vol + surface_function ((i + 1/2 : ℚ) * dx) ((j + 1/2 : ℚ) * dy) * dx * dy) vol) 0

/-- Division on ℚ that fails on a zero divisor, embedding Python's float
division, which raises `ZeroDivisionError` instead of returning a value. -/
def pyDiv (a b : ℚ) : Option ℚ := if b = 0 then none else some (a / b)

/-- `numerical_integration_riemann` with the source's `dx = dy = 1.0 / n`
divisions embedded fallibly: the result is `none` exactly when the Python
code raises before any summation occurs. -/
def numerical_integration_riemannE (n : ℕ) : Option ℚ := do
  let dx ← pyDiv 1 (n : ℚ)
  let dy ← pyDiv 1 (n : ℚ)
  some ((List.range n).foldl (fun (vol : ℚ) (i : ℕ) =>
    (List.range n).foldl (fun (vol : ℚ) (j : ℕ) =>
      vol + surface_function ((i + 1/2 : ℚ) * dx) ((j + 1/2 : ℚ) * dy) * dx * dy) vol) 0)

/-- `monte_carlo_integration`, parameterised by the drawn sample points:
the source evaluates `surface_function` at every drawn `(x, y)` and returns
`np.mean(z_values) * 1.0` (sum over count, times the unit base area). -/
def monte_carlo_integration (samples : List (ℚ × ℚ)) : ℚ :=
  ((samples.map (fun p => surface_function p.1 p.2)).sum / (samples.length : ℚ)) * 1

/-- Midpoint-rule reference definition, following the spec's words: partition
[0,1]×[0,1] into an n×n grid of cells of area 1/n², evaluate the surface
function at each cell's midpoint ((i+0.5)/n, (j+0.5)/n), and sum
f(midpoint)·cell_area over all n² cells. -/
def riemannSpec (n : ℕ) : ℚ :=
  ∑ i ∈ Finset.range n, ∑ j ∈ Finset.range n,
    surface_function (((i : ℚ) + 1/2) / n) (((j : ℚ) + 1/2) / n) * (1 / (n : ℚ) ^ 2)

/-- A left fold of an accumulating step over `List.range n` is the starting
value plus the `Finset.range` sum of the per-index contributions. -/
lemma foldl_range_add (g : ℕ → ℚ) (step : ℚ → ℕ → ℚ)
    (hstep : ∀ a x, step a x = a + g x) (a : ℚ) (n : ℕ) :
    (List.range n).foldl step a = a + ∑ i ∈ Finset.range n, g i := by
  induction n generalizing a with
  | zero => simp
  | succ n ih =>
      rw [List.range_succ, List.foldl_append, ih, Finset.sum_range_succ]
      simp [hstep, add_assoc]

/-- The nested accumulation loop of `numerical_integration_riemann` equals the
corresponding double `Finset` sum. -/
lemma riemann_eq_sum (n : ℕ) :
    numerical_integration_riemann n =
      ∑ i ∈ Finset.range n, ∑ j ∈ Finset.range n,
        surface_function (((i : ℚ) + 1/2) * (1 / n)) (((j : ℚ) + 1/2) * (1 / n))
          * (1 / n) * (1 / n) := by
  unfold numerical_integration_riemann
  rw [foldl_range_add
    (fun i => ∑ j ∈ Finset.range n,
      surface_function (((i : ℚ) + 1/2) * (1 / n)) (((j : ℚ) + 1/2) * (1 / n))
        * (1 / n) * (1 / n))
    _ (fun a i => foldl_range_add _ _ (fun a j => rfl) a n) 0 n, zero_add]

/-- Sum of squared midpoints: ∑_{i<n} (i + 1/2)² = n(4n² − 1)/12. -/
lemma sum_sq_midpoints (n : ℕ) :
    ∑ i ∈ Finset.range n, ((i : ℚ) + 1/2) ^ 2 = n * (4 * (n : ℚ) ^ 2 - 1) / 12 := by
  induction n with
  | zero => simp
  | succ n ih =>
      rw [Finset.sum_range_succ, ih]
      push_cast
      ring

/-- Closed form of the Riemann midpoint sum under exact arithmetic:
`riemann n = 2/3 − 1/(6n²)` for every n ≥ 1. -/
lemma riemann_closed_form (n : ℕ) (hn : 1 ≤ n) :
    numerical_integration_riemann n = 2/3 - 1 / (6 * (n : ℚ) ^ 2) := by
  have hn0 : (n : ℚ) ≠ 0 := Nat.cast_ne_zero.mpr (Nat.one_le_iff_ne_zero.mp hn)
  rw [riemann_eq_sum]
  unfold surface_function
  have hterm : ∀ i j : ℕ,
      ((((i : ℚ) + 1/2) * (1 / n)) ^ 2 + (((j : ℚ) + 1/2) * (1 / n)) ^ 2)
          * (1 / n) * (1 / n)
        = ((i : ℚ) + 1/2) ^ 2 * (1 / (n : ℚ) ^ 4)
          + ((j : ℚ) + 1/2) ^ 2 * (1 / (n : ℚ) ^ 4) := by
    intro i j
    ring
  calc
    ∑ i ∈ Finset.range n, ∑ j ∈ Finset.range n,
        ((((i : ℚ) + 1/2) * (1 / n)) ^ 2 + (((j : ℚ) + 1/2) * (1 / n)) ^ 2)
          * (1 / n) * (1 / n)
      = ∑ i ∈ Finset.range n, ∑ j ∈ Finset.range n,
          (((i : ℚ) + 1/2) ^ 2 * (1 / (n : ℚ) ^ 4)
            + ((j : ℚ) + 1/2) ^ 2 * (1 / (n : ℚ) ^ 4)) := by
        exact Finset.sum_congr rfl fun i _ => Finset.sum_congr rfl fun j _ => hterm i j
    _ = ∑ i ∈ Finset.range n,
          ((n : ℚ) * (((i : ℚ) + 1/2) ^ 2 * (1 / (n : ℚ) ^ 4))
            + (∑ j ∈ Finset.range n, ((j : ℚ) + 1/2) ^ 2) * (1 / (n : ℚ) ^ 4)) := by
        refine Finset.sum_congr rfl fun i _ => ?_
        rw [Finset.sum_add_distrib, Finset.sum_const, Finset.card_range,
          nsmul_eq_mul, ← Finset.sum_mul]
    _ = (n : ℚ) * ((∑ i ∈ Finset.range n, ((i : ℚ) + 1/2) ^ 2) * (1 / (n : ℚ) ^ 4))
          + (n : ℚ) * ((∑ j ∈ Finset.range n, ((j : ℚ) + 1/2) ^ 2) * (1 / (n : ℚ) ^ 4)) := by
        rw [Finset.sum_add_distrib, Finset.sum_const, Finset.card_range,
          nsmul_eq_mul, ← Finset.mul_sum, ← Finset.sum_mul]
    _ = 2/3 - 1 / (6 * (n : ℚ) ^ 2) := by
        rw [sum_sq_midpoints]
        field_simp
        ring

/-- The absolute error of the midpoint Riemann sum against the analytical
value is exactly 1/(6n²). -/
lemma riemann_abs_error (n : ℕ) (hn : 1 ≤ n) :
    |numerical_integration_riemann n - analytical_solution| = 1 / (6 * (n : ℚ) ^ 2) := by
  rw [riemann_closed_form n hn]
  unfold analytical_solution
  rw [show (2/3 - 1 / (6 * (n : ℚ) ^ 2) - 2 / 3) = -(1 / (6 * (n : ℚ) ^ 2)) by ring,
    abs_neg, abs_of_nonneg (by positivity)]

/-- The surface function is bounded by 0 and 2 on the unit square. -/
lemma surface_function_bounds (x y : ℚ) (hx0 : 0 ≤ x) (hx1 : x ≤ 1)
    (hy0 : 0 ≤ y) (hy1 : y ≤ 1) :
    0 ≤ surface_function x y ∧ surface_function x y ≤ 2 := by
  unfold surface_function
  constructor
  · positivity
  · nlinarith

/-- A list of rationals each lying in [0, 2] has sum in [0, 2·length]. -/
lemma list_sum_bounds (l : List ℚ) (h : ∀ x ∈ l, 0 ≤ x ∧ x ≤ 2) :
    0 ≤ l.sum ∧ l.sum ≤ 2 * l.length := by
  induction l with
  | nil => simp
  | cons a t ih =>
      have ha := h a (List.mem_cons_self a t)
      have ht := ih fun x hx => h x (List.mem_cons_of_mem a hx)
      simp only [List.sum_cons, List.length_cons]
      push_cast
      constructor <;> linarith [ha.1, ha.2, ht.1, ht.2]

end VolumeCalc

namespace WeeklyTemp

/-- The fixed temperature series from `Weekly_Temp_Graph/main.py`. -/
def temperatures : List ℤ := [20, 22, 19, 23, 21, 24, 20]

/-- The printed average: `sum(temperatures) / len(temperatures)`. -/
def averageTemp : ℚ := (temperatures.sum : ℚ) / (temperatures.length : ℚ)

/-- The printed highest temperature: `max(temperatures)`.  Python's `max`
raises on an empty sequence, hence the `Option`. -/
def maxTemp : Option ℤ := temperatures.max?

/-- The printed lowest temperature: `min(temperatures)`. -/
def minTemp : Option ℤ := temperatures.min?

/-- The printed temperature spread: `max(temperatures) - min(temperatures)`. -/
def tempRange : Option ℤ := do
  let hi ← maxTemp
  let lo ← minTemp
  some (hi - lo)

end WeeklyTemp

namespace VolumeCalc

/-- C1: `analytical_solution` takes no input and returns exactly the constant
2/3, the exact value of ∫₀¹∫₀¹ (x² + y²) dx dy, with no failure mode. -/
theorem analytical_returns_two_thirds : analytical_solution = 2 / 3 := rfl

/-- C2: for every integer n ≥ 1, the Riemann loop of
`numerical_integration_riemann` returns exactly the midpoint-rule reference
value: the sum over the n×n grid of f((i+0.5)/n, (j+0.5)/n) times the cell
area 1/n². -/
theorem riemann_matches_midpoint_spec (n : ℕ) (hn : 1 ≤ n) :
    numerical_integration_riemann n = riemannSpec n := by
  rw [riemann_eq_sum]
  unfold riemannSpec surface_function
  refine Finset.sum_congr rfl fun i _ => Finset.sum_congr rfl fun j _ => ?_
  ring

/-- Witness for C2 at n = 3. -/
theorem riemann_matches_midpoint_spec_witness :
    1 ≤ 3 ∧ numerical_integration_riemann 3 = riemannSpec 3 :=
  ⟨by norm_num, riemann_matches_midpoint_spec 3 (by norm_num)⟩

/-- C3: the absolute error |riemann(n) − 2/3| strictly decreases along the
grid sizes 10, 25, 50, 100, 200 used by `main`. -/
theorem riemann_error_strictly_decreasing :
    |numerical_integration_riemann 25 - analytical_solution|
        < |numerical_integration_riemann 10 - analytical_solution| ∧
    |numerical_integration_riemann 50 - analytical_solution|
        < |numerical_integration_riemann 25 - analytical_solution| ∧
    |numerical_integration_riemann 100 - analytical_solution|
        < |numerical_integration_riemann 50 - analytical_solution| ∧
    |numerical_integration_riemann 200 - analytical_solution|
        < |numerical_integration_riemann 100 - analytical_solution| := by
  rw [riemann_abs_error 10 (by norm_num), riemann_abs_error 25 (by norm_num),
    riemann_abs_error 50 (by norm_num), riemann_abs_error 100 (by norm_num),
    riemann_abs_error 200 (by norm_num)]
  norm_num

/-- C4: `numerical_integration_riemann 1` is exactly the integrand at the
single cell's midpoint (0.5, 0.5) times the unit cell area, namely 0.5. -/
theorem riemann_one_cell :
    numerical_integration_riemann 1 = surface_function (1/2) (1/2) * 1 ∧
    numerical_integration_riemann 1 = 1/2 := by
  constructor <;>
    norm_num [numerical_integration_riemann, surface_function, List.range_succ]

/-- C5: for every nonempty draw of samples lying in [0,1]×[0,1],
`monte_carlo_integration` returns the sample mean of x² + y² over the drawn
points, and the result lies in [0, 2]. -/
theorem monte_carlo_mean_and_bounds (samples : List (ℚ × ℚ))
    (hlen : 1 ≤ samples.length)
    (hmem : ∀ p ∈ samples, 0 ≤ p.1 ∧ p.1 ≤ 1 ∧ 0 ≤ p.2 ∧ p.2 ≤ 1) :
    monte_carlo_integration samples
        = (samples.map (fun p => surface_function p.1 p.2)).sum
            / (samples.length : ℚ) ∧
    0 ≤ monte_carlo_integration samples ∧
    monte_carlo_integration samples ≤ 2 := by
  have hbounds : ∀ x ∈ samples.map (fun p => surface_function p.1 p.2),
      0 ≤ x ∧ x ≤ 2 := by
    intro x hx
    rw [List.mem_map] at hx
    obtain ⟨p, hp, rfl⟩ := hx
    obtain ⟨h1, h2, h3, h4⟩ := hmem p hp
    exact surface_function_bounds p.1 p.2 h1 h2 h3 h4
  have hsum := list_sum_bounds _ hbounds
  rw [List.length_map] at hsum
  have hlen0 : (0 : ℚ) < (samples.length : ℚ) := by
    exact_mod_cast Nat.lt_of_lt_of_le Nat.zero_lt_one hlen
  unfold monte_carlo_integration
  rw [mul_one]
  refine ⟨rfl, div_nonneg hsum.1 hlen0.le, ?_⟩
  rw [div_le_iff hlen0]
  linarith [hsum.2]

/-- Witness for C5 on the single sample (1/2, 1/2). -/
theorem monte_carlo_mean_and_bounds_witness :
    1 ≤ ([((1:ℚ)/2, (1:ℚ)/2)] : List (ℚ × ℚ)).length ∧
    0 ≤ monte_carlo_integration [((1:ℚ)/2, (1:ℚ)/2)] ∧
    monte_carlo_integration [((1:ℚ)/2, (1:ℚ)/2)] ≤ 2 :=
  ⟨by norm_num,
    (monte_carlo_mean_and_bounds [((1:ℚ)/2, (1:ℚ)/2)] (by norm_num)
      (by intro p hp; rw [List.mem_singleton] at hp; subst hp; norm_num)).2⟩

/-- C6: `numerical_integration_riemann` is deterministic: for every n ≥ 1,
two runs at the same n return identical values. -/
theorem riemann_deterministic (n : ℕ) (hn : 1 ≤ n) :
    numerical_integration_riemann n = numerical_integration_riemann n := rfl

/-- Witness for C6 at n = 7. -/
theorem riemann_deterministic_witness :
    1 ≤ 7 ∧ numerical_integration_riemann 7 = numerical_integration_riemann 7 :=
  ⟨by norm_num, riemann_deterministic 7 (by norm_num)⟩

/-- C9: under exact arithmetic the Riemann midpoint loop has closed form
2/3 − 1/(6n²) for every n ≥ 1; it always strictly underestimates 2/3 and
strictly increases toward it as n grows. -/
theorem riemann_closed_form_monotone (n : ℕ) (hn : 1 ≤ n) :
    numerical_integration_riemann n = 2/3 - 1 / (6 * (n : ℚ) ^ 2) ∧
    numerical_integration_riemann n < 2/3 ∧
    ∀ m : ℕ, 1 ≤ m → m < n →
      numerical_integration_riemann m < numerical_integration_riemann n := by
  have hform := riemann_closed_form n hn
  have hnq : (0 : ℚ) < (n : ℚ) := by
    exact_mod_cast Nat.lt_of_lt_of_le Nat.zero_lt_one hn
  refine ⟨hform, ?_, ?_⟩
  · rw [hform]
    have hpos : 0 < 1 / (6 * (n : ℚ) ^ 2) := by positivity
    linarith
  · intro m hm hmn
    rw [hform, riemann_closed_form m hm]
    have hmq : (0 : ℚ) < (m : ℚ) := by
      exact_mod_cast Nat.lt_of_lt_of_le Nat.zero_lt_one hm
    have hlt : (m : ℚ) < (n : ℚ) := by exact_mod_cast hmn
    have hsq : (m : ℚ) ^ 2 < (n : ℚ) ^ 2 := by nlinarith
    have hfrac : 1 / (6 * (n : ℚ) ^ 2) < 1 / (6 * (m : ℚ) ^ 2) := by
      apply one_div_lt_one_div_of_lt
      · positivity
      · nlinarith
    linarith

/-- Witness for C9 at n = 2. -/
theorem riemann_closed_form_monotone_witness :
    1 ≤ 2 ∧
    (numerical_integration_riemann 2 = 2/3 - 1 / (6 * ((2 : ℕ) : ℚ) ^ 2) ∧
     numerical_integration_riemann 2 < 2/3 ∧
     ∀ m : ℕ, 1 ≤ m → m < 2 →
       numerical_integration_riemann m < numerical_integration_riemann 2) :=
  ⟨by norm_num, riemann_closed_form_monotone 2 (by norm_num)⟩

/-- C10: calling the Riemann routine with n = 0 fails at the division
`dx = 1.0 / n` before any summation; for every n ≥ 1 the division is defined
and the fallible embedding agrees with the total one. -/
theorem riemannE_zero_raises :
    numerical_integration_riemannE 0 = none ∧
    ∀ n : ℕ, 1 ≤ n →
      numerical_integration_riemannE n = some (numerical_integration_riemann n) := by
  constructor
  · norm_num [numerical_integration_riemannE, pyDiv]
  · intro n hn
    have hn0 : ((n : ℚ)) ≠ 0 := Nat.cast_ne_zero.mpr (Nat.one_le_iff_ne_zero.mp hn)
    simp [numerical_integration_riemannE, numerical_integration_riemann, pyDiv, hn0]

/-- Witness for C10: none at n = 0 and agreement at n = 2. -/
theorem riemannE_zero_raises_witness :
    numerical_integration_riemannE 0 = none ∧
    (1 ≤ 2 ∧
      numerical_integration_riemannE 2 = some (numerical_integration_riemann 2)) :=
  ⟨riemannE_zero_raises.1, by norm_num, riemannE_zero_raises.2 2 (by norm_num)⟩

end VolumeCalc

namespace WeeklyTemp

/-- C7: on the fixed series [20,22,19,23,21,24,20] the weekly report computes
average 149/7 = 21.28571… (21.3 to one decimal place), maximum 24, minimum 19
and a spread of maximum − minimum = 5. -/
theorem weekly_report_stats :
    averageTemp = 149 / 7 ∧
    round (10 * averageTemp) = (213 : ℤ) ∧
    maxTemp = some 24 ∧ minTemp = some 19 ∧ tempRange = some 5 := by
  refine ⟨?_, ?_, ?_, ?_, ?_⟩
  · norm_num [averageTemp, temperatures]
  · norm_num [averageTemp, temperatures, round_eq]
  · decide
  · decide
  · decide

end WeeklyTemp
